import Mathlib

/-!
Shallow embedding of `scripts/flag_sessions_for_review.py` (BetterLosBanos/betterlb-ui).

The script scans a relational store of scheduling sessions for data-quality
anomalies and records findings in a persistent `review_queue` table.  We embed
the store as explicit lists of rows, SQLite/D1 values as an inductive `Value`
type, and each Python function in local-store mode as a pure Lean function
threading the database state.  The nondeterministic parts (fresh UUIDs and the
current UTC timestamp generated per flag call) are passed in as an explicit
supply; the SQLite engine's behaviour on the statements the script issues
(filters, grouping on the primary key, `ORDER BY`, and the uniqueness
constraint on `review_queue`) is embedded directly.
-/

set_option linter.unusedVariables false

/-- A SQLite/D1 storage value as seen by the script: `NULL`, an `INTEGER`,
or a `TEXT` value (the script's data never uses REAL or BLOB). -/
inductive Value where
  | null : Value
  | int : Int → Value
  | str : String → Value
deriving DecidableEq, Repr

/-- Lexicographic code-point comparison of character lists: the order SQLite's
BINARY collation induces on the TEXT values the script stores (UTF-8 byte
order agrees with code-point order). -/
def charLe : List Char → List Char → Bool
  | [], _ => true
  | _ :: _, [] => false
  | a :: as, b :: bs =>
    if a < b then true
    else if b < a then false
    else charLe as bs

theorem charLe_total : ∀ as bs : List Char, charLe as bs = true ∨ charLe bs as = true
  | [], _ => Or.inl rfl
  | _ :: _, [] => Or.inr rfl
  | a :: as, b :: bs => by
    rcases lt_trichotomy a b with h | h | h
    · left; simp [charLe, h]
    · subst h
      rcases charLe_total as bs with ih | ih
      · left; simp [charLe, lt_irrefl, ih]
      · right; simp [charLe, lt_irrefl, ih]
    · right; simp [charLe, h]

theorem charLe_trans : ∀ as bs cs : List Char,
    charLe as bs = true → charLe bs cs = true → charLe as cs = true
  | [], _, _, _, _ => rfl
  | a :: as, [], cs, h1, _ => by simp [charLe] at h1
  | a :: as, b :: bs, [], _, h2 => by simp [charLe] at h2
  | a :: as, b :: bs, c :: cs, h1, h2 => by
    by_cases hab : a < b
    · by_cases hbc : b < c
      · simp [charLe, lt_trans hab hbc]
      · by_cases hcb : c < b
        · simp [charLe, hbc, hcb] at h2
        · have : b = c := le_antisymm (not_lt.mp hcb) (not_lt.mp hbc)
          subst this
          simp [charLe, hab]
    · by_cases hba : b < a
      · simp [charLe, hab, hba] at h1
      · have : a = b := le_antisymm (not_lt.mp hba) (not_lt.mp hab)
        subst this
        simp only [charLe, lt_irrefl, if_false] at h1 h2 ⊢
        by_cases hbc : a < c
        · simp [hbc]
        · by_cases hcb : c < a
          · simp [hbc, hcb] at h2
          · have : a = c := le_antisymm (not_lt.mp hcb) (not_lt.mp hbc)
            subst this
            simp only [lt_irrefl, if_false] at h1 h2 ⊢
            exact charLe_trans as bs cs h1 h2

/-- SQLite's total order on storage values, restricted to the classes the
script uses: `NULL` sorts before every `INTEGER`, which sorts before every
`TEXT`; integers numerically, text by BINARY collation. -/
def Value.le : Value → Value → Bool
  | .null, _ => true
  | .int _, .null => false
  | .int m, .int n => decide (m ≤ n)
  | .int _, .str _ => true
  | .str _, .null => false
  | .str _, .int _ => false
  | .str s, .str t => charLe s.data t.data

theorem Value.le_total : ∀ a b : Value, Value.le a b = true ∨ Value.le b a = true
  | .null, _ => Or.inl rfl
  | .int _, .null => Or.inr rfl
  | .int m, .int n => by
    rcases Int.le_total m n with h | h
    · left; simp [Value.le, h]
    · right; simp [Value.le, h]
  | .int _, .str _ => Or.inl rfl
  | .str _, .null => Or.inr rfl
  | .str _, .int _ => Or.inr rfl
  | .str s, .str t => charLe_total s.data t.data

theorem Value.le_trans (a b c : Value) (h1 : Value.le a b = true)
    (h2 : Value.le b c = true) : Value.le a c = true := by
  cases a <;> cases b <;> cases c <;> simp_all [Value.le]
  · omega
  · exact charLe_trans _ _ _ h1 h2

/-- Python truthiness of a fetched value (`if not session.get(...)`):
`None`, `0` and the empty string are falsy. -/
def Value.truthy : Value → Bool
  | .null => false
  | .int n => decide (n ≠ 0)
  | .str s => decide (s ≠ "")

/-- SQL `IS NULL`. -/
def Value.isNull : Value → Bool
  | .null => true
  | .int _ => false
  | .str _ => false

/-- SQL `=` on values as used in joins and `IN` lists: comparisons involving
`NULL` never match (three-valued logic collapses to false in a `WHERE`). -/
def Value.sqlEq : Value → Value → Bool
  | .null, _ => false
  | _, .null => false
  | a, b => a == b

/-- How Python's f-strings render a fetched value (`str(None) = "None"`). -/
def Value.pyStr : Value → String
  | .null => "None"
  | .int n => toString n
  | .str s => s

/-- A row of the `sessions` table
(`sessions(id PK, date, type, term_id, ordinal_number, created_at)`).
The primary key `id` is a required TEXT value; the remaining columns are
nullable storage values. -/
structure Session where
  id : String
  date : Value
  type : Value
  term_id : Value
  ordinal_number : Value
  created_at : Value
deriving DecidableEq, Repr

/-- A row of the `review_queue` table
(`review_queue(id PK, item_type, item_id, issue_type, description, status,
created_at)`).  All columns the script reads or writes are required TEXT. -/
structure ReviewEntry where
  id : String
  item_type : String
  item_id : String
  issue_type : String
  description : String
  status : String
  created_at : String
deriving DecidableEq, Repr

/-- A row of the `session_absences` table (`session_absences(session_id FK,
person_id)`). -/
structure Absence where
  session_id : Value
  person_id : Value
deriving DecidableEq, Repr

/-- The local D1/SQLite store, restricted to the tables the script touches.
`memberships` keeps only its `term_id` column, the only one the script reads. -/
structure DB where
  sessions : List Session
  memberships : List Value
  session_absences : List Absence
  review_queue : List ReviewEntry
deriving DecidableEq, Repr

/-- A fetched record as `execute_query` returns it: a mapping from column
name to value (`dict(row)`).  Columns that a given SELECT does not produce
are `none`, matching `dict.get` returning `None`/the supplied default. -/
structure Row where
  id : Value
  date : Value
  type : Value
  term_id : Value
  ordinal_number : Value
  created_at : Option Value
  absence_count : Option Value
  term_member_count : Option Value
deriving DecidableEq, Repr

/-- The record produced for a session by
`SELECT id, date, type, term_id, ordinal_number FROM sessions`. -/
def Session.baseRow (s : Session) : Row :=
  { id := .str s.id, date := s.date, type := s.type, term_id := s.term_id,
    ordinal_number := s.ordinal_number, created_at := none,
    absence_count := none, term_member_count := none }

/-- The record produced for a session by the `auto_imported` SELECT, which
additionally projects `created_at`. -/
def Session.autoRow (s : Session) : Row :=
  { id := .str s.id, date := s.date, type := s.type, term_id := s.term_id,
    ordinal_number := s.ordinal_number, created_at := some s.created_at,
    absence_count := none, term_member_count := none }

/-- The record produced for a session by the `incomplete_attendance` SELECT,
which additionally projects the two aggregate counts. -/
def Session.attendanceRow (s : Session) (absences members : Nat) : Row :=
  { id := .str s.id, date := s.date, type := s.type, term_id := s.term_id,
    ordinal_number := s.ordinal_number, created_at := none,
    absence_count := some (.int absences),
    term_member_count := some (.int members) }

/-- `WHERE date IS NULL OR type IS NULL OR term_id IS NULL`. -/
def sessionMissing (s : Session) : Bool :=
  s.date.isNull || s.type.isNull || s.term_id.isNull

/-- `detect_missing_data_sessions`: sessions with a null required field,
in table order (the SELECT has no ORDER BY). -/
def detect_missing_data_sessions (db : DB) : List Row :=
  (db.sessions.filter sessionMissing).map Session.baseRow

/-- Number of sessions sharing a given non-null date (the grouped count of
the `duplicate_dates` subquery). -/
def dateOccurrences (db : DB) (d : Value) : Nat :=
  (db.sessions.filter (fun t => !t.date.isNull && t.date == d)).length

/-- The `WHERE date IN (SELECT date ... GROUP BY date HAVING COUNT(*) > 1)`
filter.  A session with a `NULL` date never matches an `IN` list. -/
def duplicateDatePred (db : DB) (s : Session) : Bool :=
  !s.date.isNull && decide (2 ≤ dateOccurrences db s.date)

/-- `ORDER BY date` (ascending). -/
def rowDateAsc (a b : Row) : Prop := Value.le a.date b.date = true

instance : DecidableRel rowDateAsc :=
  fun a b => inferInstanceAs (Decidable (Value.le a.date b.date = true))

instance : IsTotal Row rowDateAsc := ⟨fun a b => Value.le_total a.date b.date⟩

instance : IsTrans Row rowDateAsc := ⟨fun _ _ _ => Value.le_trans _ _ _⟩

/-- `ORDER BY date DESC`. -/
def rowDateDesc (a b : Row) : Prop := Value.le b.date a.date = true

instance : DecidableRel rowDateDesc :=
  fun a b => inferInstanceAs (Decidable (Value.le b.date a.date = true))

instance : IsTotal Row rowDateDesc := ⟨fun a b => Value.le_total b.date a.date⟩

instance : IsTrans Row rowDateDesc := ⟨fun _ _ _ h1 h2 => Value.le_trans _ _ _ h2 h1⟩

/-- `ORDER BY created_at DESC` (the column is always projected in the rows
this order is applied to; an absent column sorts as `NULL`). -/
def rowCreatedDesc (a b : Row) : Prop :=
  Value.le (b.created_at.getD .null) (a.created_at.getD .null) = true

instance : DecidableRel rowCreatedDesc :=
  fun a b =>
    inferInstanceAs (Decidable (Value.le (b.created_at.getD .null) (a.created_at.getD .null) = true))

instance : IsTotal Row rowCreatedDesc := ⟨fun a b => Value.le_total _ _⟩

instance : IsTrans Row rowCreatedDesc := ⟨fun _ _ _ h1 h2 => Value.le_trans _ _ _ h2 h1⟩

/-- `detect_duplicate_dates`: sessions whose date occurs more than once among
non-null dates, ordered by date ascending. -/
def detect_duplicate_dates (db : DB) : List Row :=
  List.insertionSort rowDateAsc
    ((db.sessions.filter (duplicateDatePred db)).map Session.baseRow)

/-- Whether a review-queue entry marks a session id as resolved: the
`SELECT item_id FROM review_queue WHERE item_type = 'session' AND
status = 'resolved'` subquery membership test. -/
def resolvedEntryFor (sid : String) (e : ReviewEntry) : Bool :=
  e.item_type == "session" && e.status == "resolved" && e.item_id == sid

/-- `detect_auto_imported_unreviewed`: sessions whose id is not among the
resolved review-queue entries of item type `session`, ordered by creation
timestamp descending. -/
def detect_auto_imported_unreviewed (db : DB) : List Row :=
  List.insertionSort rowCreatedDesc
    ((db.sessions.filter
        (fun s => !(db.review_queue.any (resolvedEntryFor s.id)))).map Session.autoRow)

/-- `COUNT(sa.person_id)` for one session: matched absence rows whose
`person_id` is not null (SQL `COUNT(column)` skips nulls; the unmatched
LEFT-JOIN row is all-null and contributes 0). -/
def absenceCount (db : DB) (s : Session) : Nat :=
  (db.session_absences.filter
      (fun a => Value.sqlEq a.session_id (.str s.id) && !a.person_id.isNull)).length

/-- `(SELECT COUNT(*) FROM memberships WHERE term_id = ?)`: membership rows
whose `term_id` equals the given value under SQL equality. -/
def termMemberCount (db : DB) (term : Value) : Nat :=
  (db.memberships.filter (fun m => Value.sqlEq m term)).length

/-- `HAVING term_member_count > 0` read off a fetched record. -/
def havingMembersPos (r : Row) : Bool :=
  match r.term_member_count with
  | some (.int n) => decide (0 < n)
  | _ => false

/-- The Python post-filter
`if session.get('term_member_count', 0) == 0: continue`. -/
def pythonMemberSkip (r : Row) : Bool :=
  (r.term_member_count.getD (.int 0)) == .int 0

/-- `detect_incomplete_attendance`: every session with a non-null term
reference, grouped by the primary key with its absence count and its term's
membership count, kept when the membership count is positive (`HAVING`),
ordered by date descending, then passed through the Python loop that skips
records whose membership count is zero (a no-op after the `HAVING`). -/
def detect_incomplete_attendance (db : DB) : List Row :=
  let grouped :=
    (db.sessions.filter (fun s => !s.term_id.isNull)).map
      (fun s => s.attendanceRow (absenceCount db s) (termMemberCount db s.term_id))
  let kept := grouped.filter havingMembersPos
  let ordered := List.insertionSort rowDateDesc kept
  ordered.filter (fun r => !pythonMemberSkip r)

/-- The uniqueness key of the `review_queue` store constraint, instantiated
at (`'session'`, `sid`, `kind`): the columns (`item_type`, `item_id`,
`issue_type`). -/
def reviewKey (sid kind : String) (e : ReviewEntry) : Bool :=
  e.item_type == "session" && e.item_id == sid && e.issue_type == kind

/-- The number of review-queue rows matching the uniqueness key
(`item_type`, `item_id`, `issue_type`) at `('session', sid, kind)`. -/
def reviewCount (db : DB) (sid kind : String) : Nat :=
  (db.review_queue.filter (reviewKey sid kind)).length

/-- `flag_session_for_review` in local mode.  `review_id` and `now` are the
fresh UUID-based id and UTC timestamp the function generates per call.  In
preview (`dry_run`) mode it only prints a notice and reports success.
Otherwise it attempts the INSERT; the store's uniqueness constraint over
(`item_type`, `item_id`, `issue_type`) rejects a duplicate key with
`sqlite3.IntegrityError`, which the function swallows and treats as success
("already in review queue"). -/
def flag_session_for_review (session_id issue_type description review_id now : String)
    (dry_run : Bool) (db : DB) : DB × Bool :=
  if dry_run then (db, true)
  else if db.review_queue.any (reviewKey session_id issue_type) then
    (db, true)
  else
    ({ db with review_queue := db.review_queue ++
        [{ id := review_id, item_type := "session", item_id := session_id,
           issue_type := issue_type, description := description,
           status := "pending", created_at := now }] }, true)

/-- Observable side effects of `run_checks`: the "Unknown criterion" warning,
the per-criterion summary line ("Found n sessions, flagged m"), and each
invocation of the writer `flag_session_for_review`. -/
inductive Event where
  | warnUnknown (criterion : String) : Event
  | ranCheck (criterion : String) (found flagged : Nat) : Event
  | flagCall (session_id issue_type description : String) : Event
deriving DecidableEq, Repr

/-- Per-criterion summary entry (`{'found': ..., 'flagged': ...}`). -/
structure CritStats where
  found : Nat
  flagged : Nat
deriving DecidableEq, Repr

/-- The `results` dict of `run_checks`. `by_criteria` is a Python dict:
keys in first-insertion order, assignment to an existing key overwrites
its value in place. -/
structure RunResults where
  total_flagged : Nat
  by_criteria : List (String × CritStats)
deriving DecidableEq, Repr

/-- Python dict assignment `d[k] = v` on an insertion-ordered dict. -/
def dictInsert (m : List (String × CritStats)) (k : String) (v : CritStats) :
    List (String × CritStats) :=
  if m.any (fun p => p.1 == k) then
    m.map (fun p => bif p.1 == k then (k, v) else p)
  else m ++ [(k, v)]

/-- The list built by the `missing_data` branch of the description
computation: the fields among date, type, term_id whose fetched value is
falsy (`if not session.get('date') ...`), in that order. -/
def missingFieldsList (r : Row) : List String :=
  (if !r.date.truthy then ["date"] else []) ++
    (if !r.type.truthy then ["type"] else []) ++
      (if !r.term_id.truthy then ["term_id"] else [])

/-- How the f-strings render `session.get('absence_count', 0)` and
`session.get('term_member_count', 0)`. -/
def countFieldStr (o : Option Value) : String :=
  match o with
  | some v => v.pyStr
  | none => "0"

/-- The kind-specific description `run_checks` computes for a candidate
record before calling the writer. -/
def description_for (criterion : String) (r : Row) : String :=
  if criterion == "missing_data" then
    "Missing required fields: " ++ String.intercalate ", " (missingFieldsList r)
  else if criterion == "duplicate_dates" then
    "Duplicate session date: " ++ r.date.pyStr
  else if criterion == "incomplete_attendance" then
    "Incomplete attendance: " ++ countFieldStr r.absence_count ++
      " absences recorded for " ++ countFieldStr r.term_member_count ++ " term members"
  else
    "Session flagged for " ++ criterion

/-- State of the inner per-candidate loop of `run_checks` after processing a
list of records: the store, the `flagged_count` accumulated, the next index
into the freshness supply, and the writer calls made. -/
structure LoopOut where
  db : DB
  flagged : Nat
  next : Nat
  events : List Event
deriving DecidableEq, Repr

/-- The inner loop of `run_checks` over one criterion's candidate records:
skip a record whose `id` is falsy without calling the writer; otherwise
compute the description, call `flag_session_for_review` (with the `k`-th
fresh id/timestamp pair from `gen`), and count a `True` return into
`flagged_count`. -/
def processRows (criterion : String) (dryRun : Bool) (gen : Nat → String × String) :
    List Row → DB → Nat → LoopOut
  | [], db, k => { db := db, flagged := 0, next := k, events := [] }
  | r :: rest, db, k =>
    if r.id.truthy then
      let desc := description_for criterion r
      let fresh := gen k
      let res := flag_session_for_review r.id.pyStr criterion desc fresh.1 fresh.2 dryRun db
      let out := processRows criterion dryRun gen rest res.1 (k + 1)
      { db := out.db, flagged := (if res.2 then 1 else 0) + out.flagged,
        next := out.next,
        events := .flagCall r.id.pyStr criterion desc :: out.events }
    else
      processRows criterion dryRun gen rest db k

/-- The fixed `check_functions` table of `run_checks`. -/
def known_criteria : List String :=
  ["missing_data", "duplicate_dates", "incomplete_attendance", "auto_imported"]

/-- Dispatch into the detection rule registered for a recognized criterion. -/
def detect_for (criterion : String) (db : DB) : List Row :=
  if criterion == "missing_data" then detect_missing_data_sessions db
  else if criterion == "duplicate_dates" then detect_duplicate_dates db
  else if criterion == "incomplete_attendance" then detect_incomplete_attendance db
  else detect_auto_imported_unreviewed db

/-- State of a `run_checks` invocation: the `results` summary, the store,
the next freshness index, and the observable events so far. -/
structure RunOut where
  results : RunResults
  db : DB
  next : Nat
  events : List Event
deriving DecidableEq, Repr

/-- The `for criterion in criteria` loop of `run_checks`, threading the
accumulated state.  An unrecognized criterion is skipped with a warning;
a recognized one runs its detection rule against the current store, flags
each candidate, records `{'found': len(sessions), 'flagged': flagged_count}`
under the criterion, and adds `flagged_count` to `total_flagged`. -/
def run_checks_loop (gen : Nat → String × String) (dryRun : Bool) :
    List String → RunOut → RunOut
  | [], acc => acc
  | c :: rest, acc =>
    if known_criteria.contains c then
      let rows := detect_for c acc.db
      let lo := processRows c dryRun gen rows acc.db acc.next
      run_checks_loop gen dryRun rest
        { results :=
            { total_flagged := acc.results.total_flagged + lo.flagged,
              by_criteria := dictInsert acc.results.by_criteria c
                { found := rows.length, flagged := lo.flagged } },
          db := lo.db, next := lo.next,
          events := acc.events ++ .ranCheck c rows.length lo.flagged :: lo.events }
    else
      run_checks_loop gen dryRun rest
        { results := acc.results, db := acc.db, next := acc.next,
          events := acc.events ++ [.warnUnknown c] }

/-- `run_checks` in local mode, starting from empty results. -/
def run_checks (gen : Nat → String × String) (criteria : List String)
    (dryRun : Bool) (db : DB) : RunOut :=
  run_checks_loop gen dryRun criteria
    { results := { total_flagged := 0, by_criteria := [] },
      db := db, next := 0, events := [] }

/-- Outcome of the local branch of `execute_query`: the rows or the
propagated exception, plus whether the connection was closed before the
function returned. -/
structure ExecOutcome where
  result : Except String (List Row)
  connClosed : Bool
deriving Repr

/-- The local branch of `execute_query` (lines 117-123): open a connection,
run `cursor.execute`/`fetchall` (abstracted as the fallible step `run`),
then `conn.close()` and return the rows.  There is no try/finally: if the
statement raises, the exception propagates before the `conn.close()` line is
reached. -/
def execute_query_local (run : Except String (List Row)) : ExecOutcome :=
  match run with
  | .ok rows => { result := .ok rows, connClosed := true }
  | .error e => { result := .error e, connClosed := false }

/-- A parsed JSON document, as `json.loads` produces it. -/
inductive Json where
  | null : Json
  | bool (b : Bool) : Json
  | num (n : Int) : Json
  | str (s : String) : Json
  | arr (elems : List Json) : Json
  | obj (fields : List (String × Json)) : Json

/-- The `'results' in data[0]` / `data[0]['results']` lookup: the field's
value when the first element is an object containing it, else `none`. -/
def resultsField : Json → Option Json
  | .obj fields => fields.lookup "results"
  | _ => none

/-- Whether a document is a non-empty JSON list
(`isinstance(data, list) and len(data) > 0`). -/
def Json.isNonemptyList : Json → Bool
  | .arr (_ :: _) => true
  | _ => false

/-- `parse_wrangler_output`, parameterized by the `json.loads` collaborator
(`loads s = none` models `json.JSONDecodeError`).  A `None` or empty output
is falsy and yields `[]`; so do malformed JSON and JSON that is not a
non-empty list.  For a non-empty list whose first element is an object with
a `results` field, that field's value is returned as-is (whatever its
shape); any other non-empty list is returned unchanged. -/
def parse_wrangler_output (loads : String → Option Json) (output : Option String) : Json :=
  match output with
  | none => .arr []
  | some s =>
    if s == "" then .arr []
    else
      match loads s with
      | none => .arr []
      | some data =>
        match data with
        | .arr (first :: rest) =>
          match resultsField first with
          | some v => v
          | none => .arr (first :: rest)
        | _ => .arr []

theorem flag_session_for_review_returns_true (sid kind d rid now : String) (dr : Bool)
    (db : DB) : (flag_session_for_review sid kind d rid now dr db).2 = true := by
  unfold flag_session_for_review
  split
  · rfl
  · split <;> rfl

theorem flag_session_for_review_dry (sid kind d rid now : String) (db : DB) :
    flag_session_for_review sid kind d rid now true db = (db, true) := rfl

/-- C1: flagging the same (session, issue kind) pair twice in local mode with
preview off reports success on both calls — the second call's uniqueness
violation is swallowed as success — and leaves exactly one review-queue row
with key `('session', sid, kind)`, provided the store satisfied its
uniqueness constraint beforehand (at most one such row). -/
theorem flag_session_for_review_idempotent (db : DB) (sid kind d1 r1 n1 d2 r2 n2 : String)
    (h : reviewCount db sid kind ≤ 1) :
    (flag_session_for_review sid kind d1 r1 n1 false db).2 = true ∧
    (flag_session_for_review sid kind d2 r2 n2 false
        (flag_session_for_review sid kind d1 r1 n1 false db).1).2 = true ∧
    reviewCount
        (flag_session_for_review sid kind d2 r2 n2 false
          (flag_session_for_review sid kind d1 r1 n1 false db).1).1 sid kind = 1 := by
  refine ⟨flag_session_for_review_returns_true .., flag_session_for_review_returns_true .., ?_⟩
  by_cases hany : db.review_queue.any (reviewKey sid kind) = true
  · have h1 : (flag_session_for_review sid kind d1 r1 n1 false db).1 = db := by
      simp [flag_session_for_review, hany]
    rw [h1]
    have h2 : (flag_session_for_review sid kind d2 r2 n2 false db).1 = db := by
      simp [flag_session_for_review, hany]
    rw [h2]
    obtain ⟨e, he, hkey⟩ := List.any_eq_true.mp hany
    have hpos : 0 < reviewCount db sid kind := by
      have hmem : e ∈ db.review_queue.filter (reviewKey sid kind) :=
        List.mem_filter.mpr ⟨he, hkey⟩
      have hlen := List.length_pos.mpr (List.ne_nil_of_mem hmem)
      simpa [reviewCount] using hlen
    omega
  · have hnone : db.review_queue.any (reviewKey sid kind) = false := by
      simpa using hany
    have hfilter : db.review_queue.filter (reviewKey sid kind) = [] := by
      rw [List.filter_eq_nil_iff]
      intro e he
      simpa using List.any_eq_false.mp hnone e he
    have h1 : (flag_session_for_review sid kind d1 r1 n1 false db).1 =
        { db with review_queue := db.review_queue ++
            [(⟨r1, "session", sid, kind, d1, "pending", n1⟩ : ReviewEntry)] } := by
      simp [flag_session_for_review, hnone]
    rw [h1]
    have hany2 : ({ db with review_queue := db.review_queue ++
        [(⟨r1, "session", sid, kind, d1, "pending", n1⟩ : ReviewEntry)] } : DB).review_queue.any
          (reviewKey sid kind) = true := by
      simp [reviewKey]
    have h2 : (flag_session_for_review sid kind d2 r2 n2 false
        { db with review_queue := db.review_queue ++
            [(⟨r1, "session", sid, kind, d1, "pending", n1⟩ : ReviewEntry)] }).1 =
        { db with review_queue := db.review_queue ++
            [(⟨r1, "session", sid, kind, d1, "pending", n1⟩ : ReviewEntry)] } := by
      simp [flag_session_for_review, hany2]
    rw [h2]
    simp [reviewCount, List.filter_append, hfilter, reviewKey]

/-- An empty store, used as a concrete witness input. -/
def emptyDB : DB :=
  { sessions := [], memberships := [], session_absences := [], review_queue := [] }

/-- C1 witness: a store with an empty review queue. -/
theorem flag_session_for_review_idempotent_witness :
    reviewCount emptyDB "s1" "missing_data" ≤ 1 ∧
    reviewCount
        (flag_session_for_review "s1" "missing_data" "d2" "r2" "n2" false
          (flag_session_for_review "s1" "missing_data" "d1" "r1" "n1" false
            emptyDB).1).1 "s1" "missing_data" = 1 :=
  ⟨by decide,
    (flag_session_for_review_idempotent emptyDB
      "s1" "missing_data" "d1" "r1" "n1" "d2" "r2" "n2" (by decide)).2.2⟩

/-- C7 counterexample: when executing the statement raises (here: a missing
table), the local branch of `execute_query` returns with the connection not
closed — there is no try/finally around lines 118-122, so the claimed
"always closed, including on error paths" fails. -/
theorem execute_query_not_closed_on_error_cex :
    (execute_query_local (.error "no such table: sessions")).connClosed = false := rfl

/-- C7 (amended): in local mode `execute_query` closes the connection before
returning the fetched rows on the success path; when executing the statement
raises, the exception propagates and the connection is left open. -/
theorem execute_query_close_behavior :
    (∀ rows : List Row,
      execute_query_local (.ok rows) = { result := .ok rows, connClosed := true }) ∧
    (∀ e : String,
      execute_query_local (.error e) = { result := .error e, connClosed := false }) :=
  ⟨fun _ => rfl, fun _ => rfl⟩

/-- C9: `parse_wrangler_output` is a total case analysis on the shape of the
wrangler output: null/empty output, malformed JSON, and JSON that is not a
non-empty list all give the empty sequence; a non-empty list whose first
element is an object with a `results` field gives that field's value; any
other non-empty list is returned as-is. -/
theorem parse_wrangler_output_shape (loads : String → Option Json) (output : Option String) :
    (output = none → parse_wrangler_output loads output = .arr []) ∧
    (parse_wrangler_output loads (some "") = .arr []) ∧
    (∀ s, s ≠ "" → loads s = none → parse_wrangler_output loads (some s) = .arr []) ∧
    (∀ s j, s ≠ "" → loads s = some j → j.isNonemptyList = false →
      parse_wrangler_output loads (some s) = .arr []) ∧
    (∀ s first rest v, s ≠ "" → loads s = some (.arr (first :: rest)) →
      resultsField first = some v → parse_wrangler_output loads (some s) = v) ∧
    (∀ s first rest, s ≠ "" → loads s = some (.arr (first :: rest)) →
      resultsField first = none → parse_wrangler_output loads (some s) = .arr (first :: rest)) := by
  refine ⟨?_, rfl, ?_, ?_, ?_, ?_⟩
  · rintro rfl; rfl
  · intro s hs hl
    simp [parse_wrangler_output, hl, hs]
  · intro s j hs hl hj
    cases j with
    | arr elems =>
      cases elems with
      | nil => simp [parse_wrangler_output, hl, hs]
      | cons a l => simp [Json.isNonemptyList] at hj
    | null => simp [parse_wrangler_output, hl, hs]
    | bool b => simp [parse_wrangler_output, hl, hs]
    | num n => simp [parse_wrangler_output, hl, hs]
    | str t => simp [parse_wrangler_output, hl, hs]
    | obj fields => simp [parse_wrangler_output, hl, hs]
  · intro s first rest v hs hl hr
    simp [parse_wrangler_output, hl, hs, hr]
  · intro s first rest hs hl hr
    simp [parse_wrangler_output, hl, hs, hr]

/-- C9 witness: the envelope shape at a concrete input. -/
theorem parse_wrangler_output_shape_witness :
    parse_wrangler_output
        (fun s => if s == "wrangler output" then
            some (.arr [.obj [("results", .arr [.num 1])]]) else none)
        (some "wrangler output") = .arr [.num 1] :=
  (parse_wrangler_output_shape
      (fun s => if s == "wrangler output" then
          some (.arr [.obj [("results", .arr [.num 1])]]) else none)
      (some "wrangler output")).2.2.2.2.1
    "wrangler output" (.obj [("results", .arr [.num 1])]) [] (.arr [.num 1])
    (by decide) (by simp) rfl

/-- A sample session with a shared date (witness input). -/
def wSession1 : Session :=
  { id := "s1", date := .str "2024-01-01", type := .str "regular", term_id := .str "t1",
    ordinal_number := .int 1, created_at := .str "2024-01-02T00:00:00" }

/-- A second sample session on the same date (witness input). -/
def wSession2 : Session :=
  { id := "s2", date := .str "2024-01-01", type := .str "special", term_id := .str "t1",
    ordinal_number := .int 2, created_at := .str "2024-01-03T00:00:00" }

/-- A sample session with a null date (witness input). -/
def wSession3 : Session :=
  { id := "s3", date := .null, type := .str "regular", term_id := .str "t1",
    ordinal_number := .int 3, created_at := .str "2024-01-04T00:00:00" }

/-- A sample store: two sessions sharing a date, one session with a null
date, one term membership, one absence, and one pending review entry. -/
def sampleDB : DB :=
  { sessions := [wSession1, wSession2, wSession3],
    memberships := [.str "t1"],
    session_absences := [{ session_id := .str "s1", person_id := .str "p1" }],
    review_queue :=
      [{ id := "rq1", item_type := "session", item_id := "s1",
         issue_type := "auto_imported", description := "d", status := "pending",
         created_at := "2024-01-05T00:00:00" }] }

/-- Modelled from the claim's words, for comparison with the code's
behaviour: the fields among date, type, term_id whose value is null (SQL
`IS NULL`), in the source's field order. -/
def nullFieldsList (s : Session) : List String :=
  (if s.date.isNull then ["date"] else []) ++
    (if s.type.isNull then ["type"] else []) ++
      (if s.term_id.isNull then ["term_id"] else [])

/-- A session with an empty-string (non-null but falsy) date and a null
type: the input separating the code's truthiness test from the claim's
null test. -/
def cexSession : Session :=
  { id := "sx", date := .str "", type := .null, term_id := .str "t1",
    ordinal_number := .null, created_at := .str "2024-01-01T00:00:00" }

/-- The store holding only `cexSession`. -/
def cexDB : DB :=
  { sessions := [cexSession], memberships := [], session_absences := [],
    review_queue := [] }

/-- C3 counterexample: `cexSession` (date = the empty string, type = NULL)
is returned by the missing_data rule, but its justification is computed with
Python truthiness (`if not session.get('date')`), so it names `date` — which
is not null — alongside `type`: the justification does not name exactly the
null fields. -/
theorem detect_missing_data_justification_cex :
    Session.baseRow cexSession ∈ detect_missing_data_sessions cexDB ∧
    description_for "missing_data" (Session.baseRow cexSession) =
      "Missing required fields: date, type" ∧
    "Missing required fields: " ++ String.intercalate ", " (nullFieldsList cexSession) =
      "Missing required fields: type" ∧
    description_for "missing_data" (Session.baseRow cexSession) ≠
      "Missing required fields: " ++ String.intercalate ", " (nullFieldsList cexSession) :=
  ⟨by decide, by decide, by decide, by decide⟩

/-- C3 (amended): a session of the store is returned by the missing_data
rule exactly when its date, type or term_id is null; and the justification
names exactly the fields among date, type, term_id whose fetched value is
falsy in Python's sense (null, empty string, or zero), in that order, joined
with a comma. -/
theorem detect_missing_data_correct (db : DB) (s : Session) (hs : s ∈ db.sessions) :
    (Session.baseRow s ∈ detect_missing_data_sessions db ↔
      (s.date.isNull = true ∨ s.type.isNull = true ∨ s.term_id.isNull = true)) ∧
    ("date" ∈ missingFieldsList (Session.baseRow s) ↔ s.date.truthy = false) ∧
    ("type" ∈ missingFieldsList (Session.baseRow s) ↔ s.type.truthy = false) ∧
    ("term_id" ∈ missingFieldsList (Session.baseRow s) ↔ s.term_id.truthy = false) ∧
    description_for "missing_data" (Session.baseRow s) =
      "Missing required fields: " ++
        String.intercalate ", " (missingFieldsList (Session.baseRow s)) := by
  refine ⟨⟨?_, ?_⟩, ?_, ?_, ?_, rfl⟩
  · intro hmem
    simp only [detect_missing_data_sessions, List.mem_map] at hmem
    obtain ⟨t, ht, hrow⟩ := hmem
    rw [List.mem_filter] at ht
    have hd : t.date = s.date := congrArg Row.date hrow
    have hty : t.type = s.type := congrArg Row.type hrow
    have htm : t.term_id = s.term_id := congrArg Row.term_id hrow
    have hm := ht.2
    simp only [sessionMissing, Bool.or_eq_true] at hm
    rw [hd, hty, htm] at hm
    tauto
  · intro hcond
    simp only [detect_missing_data_sessions, List.mem_map]
    refine ⟨s, List.mem_filter.mpr ⟨hs, ?_⟩, rfl⟩
    simp only [sessionMissing, Bool.or_eq_true]
    tauto
  · cases hd : s.date.truthy <;>
      simp [missingFieldsList, Session.baseRow, hd]
  · cases hty : s.type.truthy <;> cases htm : s.term_id.truthy <;>
      simp [missingFieldsList, Session.baseRow, hty, htm]
  · cases hty : s.type.truthy <;> cases htm : s.term_id.truthy <;>
      simp [missingFieldsList, Session.baseRow, hty, htm]

/-- C3 witness: the null-dated sample session is returned. -/
theorem detect_missing_data_correct_witness :
    wSession3 ∈ sampleDB.sessions ∧
    Session.baseRow wSession3 ∈ detect_missing_data_sessions sampleDB :=
  ⟨by decide,
    (detect_missing_data_correct sampleDB wSession3 (by decide)).1.mpr (by decide)⟩

/-- C4: a session of the store appears in the duplicate_dates result exactly
when its date is non-null and shared by at least two sessions with non-null
dates (so no null-dated and no unique-dated session appears), and the result
is ordered by date ascending. -/
theorem detect_duplicate_dates_correct (db : DB) (s : Session) (hs : s ∈ db.sessions) :
    (Session.baseRow s ∈ detect_duplicate_dates db ↔
      (s.date.isNull = false ∧ 2 ≤ dateOccurrences db s.date)) ∧
    List.Sorted rowDateAsc (detect_duplicate_dates db) := by
  constructor
  · unfold detect_duplicate_dates
    rw [(List.perm_insertionSort rowDateAsc _).mem_iff]
    constructor
    · intro hmem
      rw [List.mem_map] at hmem
      obtain ⟨t, ht, hrow⟩ := hmem
      rw [List.mem_filter] at ht
      have hd : t.date = s.date := congrArg Row.date hrow
      have hp := ht.2
      simp only [duplicateDatePred, Bool.and_eq_true, Bool.not_eq_true',
        decide_eq_true_eq] at hp
      rw [hd] at hp
      exact hp
    · rintro ⟨h1, h2⟩
      rw [List.mem_map]
      refine ⟨s, List.mem_filter.mpr ⟨hs, ?_⟩, rfl⟩
      simp [duplicateDatePred, h1, h2]
  · exact List.sorted_insertionSort rowDateAsc _

/-- C4 witness: a session on the shared sample date is returned. -/
theorem detect_duplicate_dates_correct_witness :
    wSession1 ∈ sampleDB.sessions ∧
    Session.baseRow wSession1 ∈ detect_duplicate_dates sampleDB :=
  ⟨by decide,
    (detect_duplicate_dates_correct sampleDB wSession1 (by decide)).1.mpr (by decide)⟩

/-- C5: a session of the store appears in the auto_imported result exactly
when no review-queue entry with item type `session` and status `resolved`
carries its identifier — in particular a session whose matching entries are
all pending still appears — and the result is ordered by creation timestamp
descending. -/
theorem detect_auto_imported_unreviewed_correct (db : DB) (s : Session)
    (hs : s ∈ db.sessions) :
    (Session.autoRow s ∈ detect_auto_imported_unreviewed db ↔
      ¬ ∃ e, e ∈ db.review_queue ∧ e.item_type = "session" ∧ e.status = "resolved" ∧
        e.item_id = s.id) ∧
    ((∀ e, e ∈ db.review_queue → e.item_id = s.id → e.item_type = "session" →
        e.status ≠ "resolved") →
      Session.autoRow s ∈ detect_auto_imported_unreviewed db) ∧
    List.Sorted rowCreatedDesc (detect_auto_imported_unreviewed db) := by
  have hmem_iff : Session.autoRow s ∈ detect_auto_imported_unreviewed db ↔
      ¬ ∃ e, e ∈ db.review_queue ∧ e.item_type = "session" ∧ e.status = "resolved" ∧
        e.item_id = s.id := by
    unfold detect_auto_imported_unreviewed
    rw [(List.perm_insertionSort rowCreatedDesc _).mem_iff]
    constructor
    · intro hmem
      rw [List.mem_map] at hmem
      obtain ⟨t, ht, hrow⟩ := hmem
      rw [List.mem_filter] at ht
      have hid : t.id = s.id := Value.str.inj (congrArg Row.id hrow)
      have hp := ht.2
      rw [hid] at hp
      rintro ⟨e, he, h1, h2, h3⟩
      rw [Bool.not_eq_true', List.any_eq_false] at hp
      have := hp e he
      simp [resolvedEntryFor, h1, h2, h3] at this
    · intro hno
      rw [List.mem_map]
      refine ⟨s, List.mem_filter.mpr ⟨hs, ?_⟩, rfl⟩
      rw [Bool.not_eq_true', List.any_eq_false]
      intro e he
      simp only [resolvedEntryFor, Bool.and_eq_true, beq_iff_eq]
      rintro ⟨⟨h1, h2⟩, h3⟩
      exact hno ⟨e, he, h1, h2, h3⟩
  refine ⟨hmem_iff, fun hp => hmem_iff.mpr ?_, List.sorted_insertionSort rowCreatedDesc _⟩
  rintro ⟨e, he, h1, h2, h3⟩
  exact hp e he h3 h1 h2

/-- C5 witness: the sample session whose only review entry is pending is
still returned. -/
theorem detect_auto_imported_unreviewed_correct_witness :
    wSession1 ∈ sampleDB.sessions ∧
    Session.autoRow wSession1 ∈ detect_auto_imported_unreviewed sampleDB :=
  ⟨by decide,
    (detect_auto_imported_unreviewed_correct sampleDB wSession1 (by decide)).2.1
      (by decide)⟩

theorem mem_detect_incomplete_attendance (db : DB) (r : Row) :
    r ∈ detect_incomplete_attendance db ↔
      ∃ t, t ∈ db.sessions ∧ t.term_id.isNull = false ∧
        0 < termMemberCount db t.term_id ∧
        r = Session.attendanceRow t (absenceCount db t) (termMemberCount db t.term_id) := by
  unfold detect_incomplete_attendance
  rw [List.mem_filter, (List.perm_insertionSort rowDateDesc _).mem_iff, List.mem_filter,
    List.mem_map]
  constructor
  · rintro ⟨⟨⟨t, ht, hrow⟩, hhav⟩, hskip⟩
    rw [List.mem_filter] at ht
    refine ⟨t, ht.1, by simpa using ht.2, ?_, hrow.symm⟩
    rw [← hrow] at hhav
    simpa [havingMembersPos, Session.attendanceRow] using hhav
  · rintro ⟨t, ht, hterm, hpos, rfl⟩
    refine ⟨⟨⟨t, List.mem_filter.mpr ⟨ht, by simp [hterm]⟩, rfl⟩, ?_⟩, ?_⟩
    · simp [havingMembersPos, Session.attendanceRow]
      exact hpos
    · simp [pythonMemberSkip, Session.attendanceRow]
      omega

/-- C6: the incomplete_attendance rule returns, for a store whose session
ids are unique (the primary key), exactly one candidate per session with a
non-null term reference whose term has at least one membership, carrying
that session's absence count and its term's membership count; every session
whose term has zero memberships is excluded outright, regardless of its
absence count. -/
theorem detect_incomplete_attendance_correct (db : DB) (s : Session) (hs : s ∈ db.sessions)
    (hid : (db.sessions.map Session.id).Nodup) :
    (Session.attendanceRow s (absenceCount db s) (termMemberCount db s.term_id) ∈
        detect_incomplete_attendance db ↔
      (s.term_id.isNull = false ∧ 0 < termMemberCount db s.term_id)) ∧
    (termMemberCount db s.term_id = 0 →
      ∀ r, r ∈ detect_incomplete_attendance db → r.id ≠ .str s.id) ∧
    (∀ r, r ∈ detect_incomplete_attendance db → ∃ t, t ∈ db.sessions ∧
      t.term_id.isNull = false ∧ 0 < termMemberCount db t.term_id ∧
      r = Session.attendanceRow t (absenceCount db t) (termMemberCount db t.term_id)) := by
  refine ⟨⟨?_, ?_⟩, ?_, fun r hr => (mem_detect_incomplete_attendance db r).mp hr⟩
  · intro hmem
    obtain ⟨t, ht, hterm, hpos, heq⟩ := (mem_detect_incomplete_attendance db _).mp hmem
    have hid' : s.id = t.id := Value.str.inj (congrArg Row.id heq)
    have hst : s = t := List.inj_on_of_nodup_map hid hs ht hid'
    rw [← hst] at hterm hpos
    exact ⟨hterm, hpos⟩
  · rintro ⟨hterm, hpos⟩
    exact (mem_detect_incomplete_attendance db _).mpr ⟨s, hs, hterm, hpos, rfl⟩
  · intro h0 r hr hid'
    obtain ⟨t, ht, hterm, hpos, heq⟩ := (mem_detect_incomplete_attendance db r).mp hr
    have : r.id = .str t.id := congrArg Row.id heq
    rw [hid'] at this
    have hst : s = t := List.inj_on_of_nodup_map hid hs ht (Value.str.inj this.symm).symm
    rw [← hst] at hpos
    omega

/-- C6 witness: the sample term has one membership, so its session is a
candidate, carrying its counts. -/
theorem detect_incomplete_attendance_correct_witness :
    wSession1 ∈ sampleDB.sessions ∧
    Session.attendanceRow wSession1 (absenceCount sampleDB wSession1)
        (termMemberCount sampleDB wSession1.term_id) ∈
      detect_incomplete_attendance sampleDB :=
  ⟨by decide,
    (detect_incomplete_attendance_correct sampleDB wSession1 (by decide)
        (by decide)).1.mpr (by decide)⟩

/-- Projection selecting the "Unknown criterion" warnings from the event log. -/
def warnOfEvent : Event → Option String
  | .warnUnknown c => some c
  | _ => none

/-- Projection selecting the per-criterion summary lines from the event log. -/
def ranOfEvent : Event → Option String
  | .ranCheck c _ _ => some c
  | _ => none

/-- Projection selecting each executed criterion's flagged count from the
event log. -/
def flaggedOfEvent : Event → Option Nat
  | .ranCheck _ _ flagged => some flagged
  | _ => none

theorem processRows_events (criterion : String) (dryRun : Bool)
    (gen : Nat → String × String) (rows : List Row) (db : DB) (k : Nat) :
    (processRows criterion dryRun gen rows db k).events =
      (rows.filter (fun r => r.id.truthy)).map
        (fun r => Event.flagCall r.id.pyStr criterion (description_for criterion r)) := by
  induction rows generalizing db k with
  | nil => rfl
  | cons r rest ih =>
    by_cases h : r.id.truthy
    · simp [processRows, h, ih, List.filter_cons]
    · simp [processRows, h, ih, List.filter_cons]

theorem processRows_flagged (criterion : String) (dryRun : Bool)
    (gen : Nat → String × String) (rows : List Row) (db : DB) (k : Nat) :
    (processRows criterion dryRun gen rows db k).flagged =
      ((rows.filter (fun r => r.id.truthy)).length) := by
  induction rows generalizing db k with
  | nil => rfl
  | cons r rest ih =>
    by_cases h : r.id.truthy
    · simp [processRows, h, ih, List.filter_cons, flag_session_for_review_returns_true]
      omega
    · simp [processRows, h, ih, List.filter_cons]

theorem processRows_dry_db (criterion : String) (gen : Nat → String × String)
    (rows : List Row) (db : DB) (k : Nat) :
    (processRows criterion true gen rows db k).db = db := by
  induction rows generalizing db k with
  | nil => rfl
  | cons r rest ih =>
    by_cases h : r.id.truthy
    · simp [processRows, h, ih, flag_session_for_review_dry]
    · simp [processRows, h, ih]

theorem dictInsert_cons_ne (p : String × CritStats) (rest : List (String × CritStats))
    (k : String) (v : CritStats) (h : (p.1 == k) = false) :
    dictInsert (p :: rest) k v = p :: dictInsert rest k v := by
  unfold dictInsert
  simp only [List.any_cons, h, Bool.false_or, List.map_cons, Bool.cond_false]
  by_cases h2 : (rest.any fun q => q.1 == k) = true
  · simp [h2]
  · simp [h2]

theorem dictInsert_lookup_self (m : List (String × CritStats)) (k : String) (v : CritStats) :
    (dictInsert m k v).lookup k = some v := by
  induction m with
  | nil => simp [dictInsert, List.lookup]
  | cons p rest ih =>
    by_cases h : (p.1 == k) = true
    · unfold dictInsert
      simp only [List.any_cons, h, Bool.true_or, if_true, List.map_cons, Bool.cond_true]
      simp [List.lookup]
    · have h' : (p.1 == k) = false := by simpa using h
      rw [dictInsert_cons_ne p rest k v h']
      have hkp : (k == p.1) = false := by
        have hne : ¬ p.1 = k := by simpa using h
        simp only [beq_eq_false_iff_ne]
        exact fun e => hne e.symm
      simp [List.lookup, hkp, ih]

theorem lookup_replaceKey (es : List (String × CritStats)) (k c : String) (v : CritStats)
    (hck : (c == k) = false) :
    (es.map (fun q => bif q.1 == k then (k, v) else q)).lookup c = es.lookup c := by
  induction es with
  | nil => rfl
  | cons q es ih =>
    by_cases hq : (q.1 == k) = true
    · have hqk : q.1 = k := by simpa using hq
      have hcq : (c == q.1) = false := by rw [hqk]; exact hck
      simp [List.lookup, hq, hck, hcq, ih]
    · have hq' : (q.1 == k) = false := by simpa using hq
      cases hcq : (c == q.1) <;> simp [List.lookup, hq', hcq, ih]

theorem dictInsert_lookup_ne (m : List (String × CritStats)) (k c : String) (v : CritStats)
    (hck : (c == k) = false) :
    (dictInsert m k v).lookup c = m.lookup c := by
  induction m with
  | nil => simp [dictInsert, List.lookup, hck]
  | cons p rest ih =>
    by_cases h : (p.1 == k) = true
    · have hpk : p.1 = k := by simpa using h
      have hcp : (c == p.1) = false := by rw [hpk]; exact hck
      unfold dictInsert
      simp only [List.any_cons, h, Bool.true_or, if_true, List.map_cons, Bool.cond_true]
      simp [List.lookup, hcp, hck, lookup_replaceKey rest k c v hck]
    · have h' : (p.1 == k) = false := by simpa using h
      rw [dictInsert_cons_ne p rest k v h']
      cases hcp : (c == p.1) <;> simp [List.lookup, hcp, ih]

theorem run_checks_loop_cons_pos (gen : Nat → String × String) (dryRun : Bool)
    (c : String) (cs : List String) (acc : RunOut)
    (hc : known_criteria.contains c = true) :
    run_checks_loop gen dryRun (c :: cs) acc =
      run_checks_loop gen dryRun cs
        { results :=
            { total_flagged := acc.results.total_flagged +
                (processRows c dryRun gen (detect_for c acc.db) acc.db acc.next).flagged,
              by_criteria := dictInsert acc.results.by_criteria c
                { found := (detect_for c acc.db).length,
                  flagged :=
                    (processRows c dryRun gen (detect_for c acc.db) acc.db acc.next).flagged } },
          db := (processRows c dryRun gen (detect_for c acc.db) acc.db acc.next).db,
          next := (processRows c dryRun gen (detect_for c acc.db) acc.db acc.next).next,
          events := acc.events ++
            .ranCheck c (detect_for c acc.db).length
                (processRows c dryRun gen (detect_for c acc.db) acc.db acc.next).flagged ::
              (processRows c dryRun gen (detect_for c acc.db) acc.db acc.next).events } := by
  rw [run_checks_loop]
  rw [if_pos hc]

theorem run_checks_loop_cons_neg (gen : Nat → String × String) (dryRun : Bool)
    (c : String) (cs : List String) (acc : RunOut)
    (hc : ¬ known_criteria.contains c = true) :
    run_checks_loop gen dryRun (c :: cs) acc =
      run_checks_loop gen dryRun cs
        { results := acc.results, db := acc.db, next := acc.next,
          events := acc.events ++ [.warnUnknown c] } := by
  rw [run_checks_loop]
  rw [if_neg hc]

theorem filterMap_flagCall_none {β : Type} (f : Event → Option β)
    (hf : ∀ a b c, f (.flagCall a b c) = none) (criterion : String) :
    ∀ l : List Row,
      (l.map (fun r =>
        Event.flagCall r.id.pyStr criterion (description_for criterion r))).filterMap f = []
  | [] => rfl
  | r :: rest => by
    simp only [List.map_cons, List.filterMap_cons, hf]
    exact filterMap_flagCall_none f hf criterion rest

theorem run_checks_loop_delta (gen : Nat → String × String) (dryRun : Bool) :
    ∀ (cs : List String) (acc : RunOut), ∃ E : List Event,
      (run_checks_loop gen dryRun cs acc).events = acc.events ++ E ∧
      (run_checks_loop gen dryRun cs acc).results.total_flagged =
        acc.results.total_flagged + (E.filterMap flaggedOfEvent).sum ∧
      E.filterMap warnOfEvent = cs.filter (fun c => !known_criteria.contains c) ∧
      E.filterMap ranOfEvent = cs.filter (fun c => known_criteria.contains c)
  | [], acc => ⟨[], by simp [run_checks_loop]⟩
  | c :: cs, acc => by
    by_cases hc : known_criteria.contains c = true
    · rw [run_checks_loop_cons_pos gen dryRun c cs acc hc]
      obtain ⟨E, h1, h2, h3, h4⟩ := run_checks_loop_delta gen dryRun cs
        { results :=
            { total_flagged := acc.results.total_flagged +
                (processRows c dryRun gen (detect_for c acc.db) acc.db acc.next).flagged,
              by_criteria := dictInsert acc.results.by_criteria c
                { found := (detect_for c acc.db).length,
                  flagged :=
                    (processRows c dryRun gen (detect_for c acc.db) acc.db acc.next).flagged } },
          db := (processRows c dryRun gen (detect_for c acc.db) acc.db acc.next).db,
          next := (processRows c dryRun gen (detect_for c acc.db) acc.db acc.next).next,
          events := acc.events ++
            .ranCheck c (detect_for c acc.db).length
                (processRows c dryRun gen (detect_for c acc.db) acc.db acc.next).flagged ::
              (processRows c dryRun gen (detect_for c acc.db) acc.db acc.next).events }
      refine ⟨.ranCheck c (detect_for c acc.db).length
          (processRows c dryRun gen (detect_for c acc.db) acc.db acc.next).flagged ::
        (processRows c dryRun gen (detect_for c acc.db) acc.db acc.next).events ++ E,
        ?_, ?_, ?_, ?_⟩
      · rw [h1]
        simp
      · rw [h2]
        simp only [List.filterMap_cons, flaggedOfEvent, List.filterMap_append]
        rw [processRows_events c dryRun gen (detect_for c acc.db) acc.db acc.next,
          filterMap_flagCall_none flaggedOfEvent (fun _ _ _ => rfl) c]
        simp [List.sum_cons]
        omega
      · have hmem : c ∈ known_criteria := by simpa using hc
        simp only [List.filterMap_cons, warnOfEvent, List.filterMap_append]
        rw [processRows_events c dryRun gen (detect_for c acc.db) acc.db acc.next,
          filterMap_flagCall_none warnOfEvent (fun _ _ _ => rfl) c]
        simp [List.filter_cons, hmem, h3]
      · have hmem : c ∈ known_criteria := by simpa using hc
        simp only [List.filterMap_cons, ranOfEvent, List.filterMap_append]
        rw [processRows_events c dryRun gen (detect_for c acc.db) acc.db acc.next,
          filterMap_flagCall_none ranOfEvent (fun _ _ _ => rfl) c]
        simp [List.filter_cons, hmem, h4]
    · rw [run_checks_loop_cons_neg gen dryRun c cs acc hc]
      obtain ⟨E, h1, h2, h3, h4⟩ := run_checks_loop_delta gen dryRun cs
        { results := acc.results, db := acc.db, next := acc.next,
          events := acc.events ++ [.warnUnknown c] }
      refine ⟨.warnUnknown c :: E, ?_, ?_, ?_, ?_⟩
      · rw [h1]
        simp
      · rw [h2]
        simp [List.filterMap_cons, flaggedOfEvent]
      · have hmem : c ∉ known_criteria := by simpa using hc
        simp only [List.filterMap_cons, warnOfEvent]
        simp [List.filter_cons, hmem, h3]
      · have hmem : c ∉ known_criteria := by simpa using hc
        simp only [List.filterMap_cons, ranOfEvent]
        simp [List.filter_cons, hmem, h4]

theorem run_checks_loop_lookup_notmem (gen : Nat → String × String) (dryRun : Bool) :
    ∀ (cs : List String) (acc : RunOut) (c : String), c ∉ cs →
      (run_checks_loop gen dryRun cs acc).results.by_criteria.lookup c =
        acc.results.by_criteria.lookup c
  | [], acc, c, h => rfl
  | c' :: cs, acc, c, h => by
    have hne : c ≠ c' := fun e => h (e ▸ List.mem_cons_self c' cs)
    have hcs : c ∉ cs := fun e => h (List.mem_cons_of_mem _ e)
    have hne' : (c == c') = false := by simpa using hne
    by_cases hc : known_criteria.contains c' = true
    · rw [run_checks_loop_cons_pos gen dryRun c' cs acc hc]
      rw [run_checks_loop_lookup_notmem gen dryRun cs _ c hcs]
      exact dictInsert_lookup_ne _ _ _ _ hne'
    · rw [run_checks_loop_cons_neg gen dryRun c' cs acc hc]
      exact run_checks_loop_lookup_notmem gen dryRun cs _ c hcs

theorem run_checks_loop_lookup_isSome (gen : Nat → String × String) (dryRun : Bool) :
    ∀ (cs : List String) (acc : RunOut) (c : String),
      (acc.results.by_criteria.lookup c).isSome = true →
      ((run_checks_loop gen dryRun cs acc).results.by_criteria.lookup c).isSome = true
  | [], acc, c, h => h
  | c' :: cs, acc, c, h => by
    by_cases hc : known_criteria.contains c' = true
    · rw [run_checks_loop_cons_pos gen dryRun c' cs acc hc]
      apply run_checks_loop_lookup_isSome gen dryRun cs _ c
      by_cases hcc : (c == c') = true
      · have : c = c' := by simpa using hcc
        subst this
        simp [dictInsert_lookup_self]
      · have hcc' : (c == c') = false := by simpa using hcc
        simpa [dictInsert_lookup_ne _ _ _ _ hcc'] using h
    · rw [run_checks_loop_cons_neg gen dryRun c' cs acc hc]
      exact run_checks_loop_lookup_isSome gen dryRun cs _ c h

theorem run_checks_loop_lookup_found (gen : Nat → String × String) (dryRun : Bool) :
    ∀ (cs : List String) (acc : RunOut) (c : String), c ∈ cs →
      known_criteria.contains c = true →
      ((run_checks_loop gen dryRun cs acc).results.by_criteria.lookup c).isSome = true
  | [], acc, c, hmem, hrec => absurd hmem (List.not_mem_nil c)
  | c' :: cs, acc, c, hmem, hrec => by
    by_cases hcs : c ∈ cs
    · by_cases hc : known_criteria.contains c' = true
      · rw [run_checks_loop_cons_pos gen dryRun c' cs acc hc]
        exact run_checks_loop_lookup_found gen dryRun cs _ c hcs hrec
      · rw [run_checks_loop_cons_neg gen dryRun c' cs acc hc]
        exact run_checks_loop_lookup_found gen dryRun cs _ c hcs hrec
    · have hcc : c = c' := by
        rcases List.mem_cons.mp hmem with h | h
        · exact h
        · exact absurd h hcs
      subst hcc
      rw [run_checks_loop_cons_pos gen dryRun c cs acc hrec]
      apply run_checks_loop_lookup_isSome gen dryRun cs _ c
      simp [dictInsert_lookup_self]

theorem run_checks_loop_bound (gen : Nat → String × String) (dryRun : Bool) :
    ∀ (cs : List String) (acc : RunOut),
      (∀ c st, acc.results.by_criteria.lookup c = some st → st.flagged ≤ st.found) →
      ∀ c st, (run_checks_loop gen dryRun cs acc).results.by_criteria.lookup c = some st →
        st.flagged ≤ st.found
  | [], acc, hinv, c, st, h => hinv c st h
  | c' :: cs, acc, hinv, c, st, h => by
    by_cases hc : known_criteria.contains c' = true
    · rw [run_checks_loop_cons_pos gen dryRun c' cs acc hc] at h
      refine run_checks_loop_bound gen dryRun cs _ ?_ c st h
      intro c2 st2 h2
      by_cases hcc : (c2 == c') = true
      · have : c2 = c' := by simpa using hcc
        subst this
        rw [dictInsert_lookup_self] at h2
        cases h2
        simp only [processRows_flagged]
        exact List.length_filter_le _ _
      · have hcc' : (c2 == c') = false := by simpa using hcc
        rw [dictInsert_lookup_ne _ _ _ _ hcc'] at h2
        exact hinv c2 st2 h2
    · rw [run_checks_loop_cons_neg gen dryRun c' cs acc hc] at h
      exact run_checks_loop_bound gen dryRun cs
        { results := acc.results, db := acc.db, next := acc.next,
          events := acc.events ++ [.warnUnknown c'] } hinv c st h

theorem run_checks_loop_dry_db (gen : Nat → String × String) :
    ∀ (cs : List String) (acc : RunOut),
      (run_checks_loop gen true cs acc).db = acc.db
  | [], acc => rfl
  | c :: cs, acc => by
    by_cases hc : known_criteria.contains c = true
    · rw [run_checks_loop_cons_pos gen true c cs acc hc]
      rw [run_checks_loop_dry_db gen cs _]
      exact processRows_dry_db c gen _ acc.db acc.next
    · rw [run_checks_loop_cons_neg gen true c cs acc hc]
      exact run_checks_loop_dry_db gen cs _

theorem run_checks_loop_dry_lookup (gen : Nat → String × String) :
    ∀ (cs : List String) (acc : RunOut) (c : String), c ∈ cs →
      known_criteria.contains c = true →
      (run_checks_loop gen true cs acc).results.by_criteria.lookup c =
        some { found := (detect_for c acc.db).length,
               flagged := ((detect_for c acc.db).filter (fun r => r.id.truthy)).length }
  | [], acc, c, hmem, hrec => absurd hmem (List.not_mem_nil c)
  | c' :: cs, acc, c, hmem, hrec => by
    by_cases hc : known_criteria.contains c' = true
    · rw [run_checks_loop_cons_pos gen true c' cs acc hc]
      have hdb : (processRows c' true gen (detect_for c' acc.db) acc.db acc.next).db =
          acc.db := processRows_dry_db c' gen _ acc.db acc.next
      by_cases hcs : c ∈ cs
      · rw [run_checks_loop_dry_lookup gen cs _ c hcs hrec]
        rw [hdb]
      · have hcc : c = c' := by
          rcases List.mem_cons.mp hmem with h | h
          · exact h
          · exact absurd h hcs
        subst hcc
        rw [run_checks_loop_lookup_notmem gen true cs _ c hcs]
        simp only [dictInsert_lookup_self]
        rw [processRows_flagged]
    · have hne : c ≠ c' := fun e => hc (e ▸ hrec)
      have hcs : c ∈ cs := by
        rcases List.mem_cons.mp hmem with h | h
        · exact absurd h hne
        · exact h
      rw [run_checks_loop_cons_neg gen true c' cs acc hc]
      exact run_checks_loop_dry_lookup gen cs _ c hcs hrec

/-- A concrete freshness supply for witnesses. -/
def wGen : Nat → String × String :=
  fun k => ("review_w" ++ toString k, "2024-01-06T00:00:00")

/-- C2: with preview (dry-run) enabled, `run_checks` leaves the store
untouched, `flag_session_for_review` performs no mutation and reports
success on every input, and the per-criterion found count recorded for each
recognized requested kind is the exact number of candidates its detection
rule finds on the (unchanged) store. -/
theorem run_checks_preview_frame (gen : Nat → String × String) (criteria : List String)
    (db : DB) :
    (run_checks gen criteria true db).db = db ∧
    (∀ sid kind desc rid now db2,
      flag_session_for_review sid kind desc rid now true db2 = (db2, true)) ∧
    (∀ c, c ∈ criteria → known_criteria.contains c = true →
      (run_checks gen criteria true db).results.by_criteria.lookup c =
        some { found := (detect_for c db).length,
               flagged := ((detect_for c db).filter (fun r => r.id.truthy)).length }) := by
  refine ⟨?_, fun _ _ _ _ _ _ => rfl, ?_⟩
  · exact run_checks_loop_dry_db gen criteria _
  · intro c hc hrec
    exact run_checks_loop_dry_lookup gen criteria _ c hc hrec

/-- C2 witness: a preview run over the sample store. -/
theorem run_checks_preview_frame_witness :
    (run_checks wGen ["missing_data"] true sampleDB).db = sampleDB ∧
    (run_checks wGen ["missing_data"] true sampleDB).results.by_criteria.lookup
        "missing_data" =
      some { found := (detect_for "missing_data" sampleDB).length,
             flagged := ((detect_for "missing_data" sampleDB).filter
               (fun r => r.id.truthy)).length } :=
  ⟨(run_checks_preview_frame wGen ["missing_data"] sampleDB).1,
   (run_checks_preview_frame wGen ["missing_data"] sampleDB).2.2 "missing_data"
     (by decide) (by decide)⟩

/-- C8: over any requested list of issue kinds, `run_checks` emits exactly
one warning per unrecognized kind (in request order) and executes exactly
the recognized kinds (in request order); the grand total flagged is the sum
of the per-execution flagged counts, and every recognized requested kind
ends up with a per-kind entry whose flagged count never exceeds its found
count. -/
theorem run_checks_orchestration (gen : Nat → String × String) (criteria : List String)
    (dryRun : Bool) (db : DB) :
    ((run_checks gen criteria dryRun db).events.filterMap warnOfEvent =
      criteria.filter (fun c => !known_criteria.contains c)) ∧
    ((run_checks gen criteria dryRun db).events.filterMap ranOfEvent =
      criteria.filter (fun c => known_criteria.contains c)) ∧
    ((run_checks gen criteria dryRun db).results.total_flagged =
      ((run_checks gen criteria dryRun db).events.filterMap flaggedOfEvent).sum) ∧
    (∀ c, c ∈ criteria → known_criteria.contains c = true →
      ∃ st, (run_checks gen criteria dryRun db).results.by_criteria.lookup c = some st ∧
        st.flagged ≤ st.found) := by
  obtain ⟨E, h1, h2, h3, h4⟩ := run_checks_loop_delta gen dryRun criteria
    { results := { total_flagged := 0, by_criteria := [] },
      db := db, next := 0, events := [] }
  have hev : (run_checks gen criteria dryRun db).events = E := by
    rw [run_checks, h1]
    rfl
  refine ⟨?_, ?_, ?_, ?_⟩
  · rw [hev, h3]
  · rw [hev, h4]
  · rw [hev]
    rw [run_checks, h2]
    simp
  · intro c hc hrec
    have hsome := run_checks_loop_lookup_found gen dryRun criteria
      { results := { total_flagged := 0, by_criteria := [] },
        db := db, next := 0, events := [] } c hc hrec
    obtain ⟨st, hst⟩ := Option.isSome_iff_exists.mp hsome
    refine ⟨st, hst, ?_⟩
    refine run_checks_loop_bound gen dryRun criteria
      { results := { total_flagged := 0, by_criteria := [] },
        db := db, next := 0, events := [] } ?_ c st hst
    intro c2 st2 h2'
    simp [List.lookup] at h2'

/-- C8 witness: a run with one bogus and one recognized kind. -/
theorem run_checks_orchestration_witness :
    ∃ st, (run_checks wGen ["bogus", "missing_data"] false
        sampleDB).results.by_criteria.lookup "missing_data" = some st ∧
      st.flagged ≤ st.found :=
  (run_checks_orchestration wGen ["bogus", "missing_data"] false sampleDB).2.2.2
    "missing_data" (by decide) (by decide)

theorem length_filter_split {α : Type} (p : α → Bool) (l : List α) :
    l.length = (l.filter p).length + (l.filter (fun a => !p a)).length := by
  induction l with
  | nil => rfl
  | cons a t ih =>
    by_cases h : p a = true
    · simp [List.filter_cons, h, ih]
      omega
    · have h' : p a = false := by simpa using h
      simp [List.filter_cons, h', ih]
      omega

/-- C10: running one recognized criterion in local non-preview mode, the
per-criterion found count is the full number of detected records, while the
writer is invoked exactly once per record with a truthy id — records whose
id is absent, null, or empty are silently skipped but still counted in
found.  Since the local writer always reports success (uniqueness violations
included), found = flagged + number of falsy-id records. -/
theorem run_checks_skips_falsy_ids (gen : Nat → String × String) (c : String) (db : DB)
    (hrec : known_criteria.contains c = true) :
    (run_checks gen [c] false db).results.by_criteria =
      [(c, { found := (detect_for c db).length,
             flagged := ((detect_for c db).filter (fun r => r.id.truthy)).length })] ∧
    (run_checks gen [c] false db).events =
      Event.ranCheck c (detect_for c db).length
          ((detect_for c db).filter (fun r => r.id.truthy)).length ::
        ((detect_for c db).filter (fun r => r.id.truthy)).map
          (fun r => Event.flagCall r.id.pyStr c (description_for c r)) ∧
    (detect_for c db).length =
      ((detect_for c db).filter (fun r => r.id.truthy)).length +
        ((detect_for c db).filter (fun r => !r.id.truthy)).length := by
  have hstep := run_checks_loop_cons_pos gen false c []
    { results := { total_flagged := 0, by_criteria := [] },
      db := db, next := 0, events := [] } hrec
  refine ⟨?_, ?_, length_filter_split _ _⟩
  · rw [run_checks, hstep]
    simp only [run_checks_loop]
    simp [dictInsert, processRows_flagged]
  · rw [run_checks, hstep]
    simp only [run_checks_loop]
    simp [processRows_events, processRows_flagged]

/-- A store with one normal and one empty-id missing-data session
(witness input). -/
def falsyIdDB : DB :=
  { sessions :=
      [{ id := "sf", date := .null, type := .str "x", term_id := .str "t1",
         ordinal_number := .int 1, created_at := .str "2024-01-01T00:00:00" },
       { id := "", date := .null, type := .str "y", term_id := .str "t1",
         ordinal_number := .int 2, created_at := .str "2024-01-02T00:00:00" }],
    memberships := [], session_absences := [], review_queue := [] }

/-- C10 witness: two candidates found, only the truthy-id one flagged. -/
theorem run_checks_skips_falsy_ids_witness :
    (run_checks wGen ["missing_data"] false falsyIdDB).results.by_criteria =
      [("missing_data", { found := 2, flagged := 1 })] := by
  have h := run_checks_skips_falsy_ids wGen "missing_data" falsyIdDB (by decide)
  rw [h.1]
  decide
